import Mathlib

/-!
Shallow embedding of the snake game core from `src/game.ts`, together with
theorems checking the natural-language specification against it.

The embedding covers: the `Heading` type and `isOpposite` (game.ts 28-43),
grid cells with movement and the canonical string key (game.ts 45-66), the
`Board` (game.ts 68-111), the `GameState` record (game.ts 113-124), the
per-tick state transition performed inside `scan` (game.ts 176-210), the
initial state (game.ts 166-172), the delivered stream prefix produced by
`startWith`/`takeWhile` (game.ts 211-212), and the module-level session
controller `gameOn` (game.ts 16-26).

Effectful collaborators are abstracted exactly where the code consumes them:
`board.random()` becomes an explicit food-placement oracle argument, the
keyboard join becomes a heading oracle, and DOM rendering is outside the
state transition (as in the source, where the subscriber only consumes the
emitted states).
-/

set_option maxRecDepth 8000

namespace SnakeGame

/-- Travel direction, from game.ts line 28: `type Heading = "N" | "E" | "S" | "W"`. -/
inductive Heading where
  | N
  | E
  | S
  | W
deriving DecidableEq, Repr

/-- game.ts lines 30-43: `isOpposite(heading1, heading2)`. -/
def isOpposite (heading1 heading2 : Heading) : Bool :=
  match heading1 with
  | .N => decide (heading2 = .S)
  | .E => decide (heading2 = .W)
  | .S => decide (heading2 = .N)
  | .W => decide (heading2 = .E)

/-- game.ts lines 45-46: `class CellLocation` with integer coordinates. -/
structure CellLocation where
  x : Int
  y : Int
deriving DecidableEq, Repr

/-- game.ts lines 48-61: `CellLocation.next(heading)`; the TS `default` branch is
unreachable because `Heading` has exactly the four cases. -/
def CellLocation.next (c : CellLocation) (heading : Heading) : CellLocation :=
  match heading with
  | .N => ⟨c.x, c.y - 1⟩
  | .E => ⟨c.x + 1, c.y⟩
  | .S => ⟨c.x, c.y + 1⟩
  | .W => ⟨c.x - 1, c.y⟩

/-- Decimal digit characters of a natural number, most significant digit first,
written with explicit fuel so that the kernel can evaluate it; for `n ≤ fuel`
this is the ECMAScript decimal rendering of `n` except that `0` renders as `[]`
(the `natChars` wrapper fixes that case). -/
def natCharsAux : Nat → Nat → List Char
  | _, 0 => []
  | 0, _ + 1 => []
  | fuel + 1, n + 1 => natCharsAux fuel ((n + 1) / 10) ++ [Nat.digitChar ((n + 1) % 10)]

/-- ECMAScript `ToString` of a natural number. -/
def natChars (n : Nat) : List Char :=
  if n = 0 then ['0'] else natCharsAux n n

/-- ECMAScript `ToString` of an integer: a leading minus sign on negatives,
decimal digits of the absolute value. -/
def intChars (n : Int) : List Char :=
  if n < 0 then '-' :: natChars n.natAbs else natChars n.natAbs

/-- game.ts lines 63-65: `get id() { return this.x + "_" + this.y; }` — the
coordinates rendered the ECMAScript way, joined by an underscore. -/
def CellLocation.id (c : CellLocation) : String :=
  ⟨intChars c.x ++ '_' :: intChars c.y⟩

/-- game.ts lines 68-75: the board's grid dimensions and cell size. The
constructor arithmetic (`floor(domRect.width / cellSize)`) happens before the
core starts; the claims only depend on the resulting fields. -/
structure Board where
  width : Nat
  height : Nat
  cellSize : Nat
deriving DecidableEq, Repr

/-- game.ts lines 77-83: `startSnake(size, heading)`; the `size` parameter is
accepted and ignored, exactly as in the source. -/
def Board.startSnake (b : Board) (size : Nat) (heading : Heading) : List CellLocation :=
  let centre : CellLocation := ⟨(b.width / 2 : Nat), (b.height / 2 : Nat)⟩
  [centre, centre.next heading]

/-- game.ts lines 85-92: `isWithinBounds(location)`. -/
def Board.isWithinBounds (b : Board) (location : CellLocation) : Bool :=
  decide (0 ≤ location.x) && decide (location.x < (b.width : Int)) &&
    decide (0 ≤ location.y) && decide (location.y < (b.height : Int))

/-- game.ts lines 115-118: the snake part of the state. -/
structure Snake where
  body : List CellLocation
  heading : Heading
deriving DecidableEq, Repr

/-- game.ts lines 119-122: the per-tick rendering diff. -/
structure SnakeEvolution where
  newHead : List CellLocation
  oldTail : List CellLocation
deriving DecidableEq, Repr

/-- game.ts lines 113-124: `interface GameState`. -/
structure GameState where
  isAlive : Bool
  snake : Snake
  snakeEvolution : SnakeEvolution
  foodLocation : Option CellLocation
deriving DecidableEq, Repr

/-- game.ts lines 177-179: the effective heading for a tick; a reversal request
keeps the previous heading, everything else is honoured. -/
def resolveHeading (prev sampled : Heading) : Heading :=
  if isOpposite prev sampled then prev else sampled

/-- game.ts lines 180-182: `acc.snake.body[acc.snake.body.length - 1]` — the last
body cell is the head. The default is never used on the nonempty bodies the
game produces. -/
def lastBody (body : List CellLocation) : CellLocation :=
  body.getLastD ⟨0, 0⟩

/-- The new head of a tick: the previous head moved one cell in the effective
heading (game.ts lines 177-182). -/
def newHeadOf (acc : GameState) (sampled : Heading) : CellLocation :=
  (lastBody acc.snake.body).next (resolveHeading acc.snake.heading sampled)

/-- game.ts lines 183-185: the death test — out of bounds, or the new head's id
matches the id of some cell of the full pre-move body. -/
def didDie (board : Board) (acc : GameState) (newHead : CellLocation) : Bool :=
  !board.isWithinBounds newHead ||
    (acc.snake.body.find? fun x => decide (x.id = newHead.id)).isSome

/-- game.ts line 192: `acc.foodLocation && acc.foodLocation.id === newHead.id`. -/
def didEat (acc : GameState) (newHead : CellLocation) : Bool :=
  match acc.foodLocation with
  | none => false
  | some f => decide (f.id = newHead.id)

/-- game.ts lines 176-210: the body of the `scan`, one game tick. The `food`
argument is the cell that `this.board.random()` would return on this tick; it
is consulted only when the respawn condition fires, exactly as in the source.
The `this.endGame(...)` call in the death branch is a DOM side effect and has
no bearing on the returned state. -/
def transition (board : Board) (food : CellLocation) (acc : GameState)
    (sampled : Heading) : GameState :=
  let newHead := newHeadOf acc sampled
  if didDie board acc newHead then
    { acc with isAlive := false }
  else
    { isAlive := true
      snake :=
        { body :=
            if didEat acc newHead then acc.snake.body ++ [newHead]
            else acc.snake.body.drop 1 ++ [newHead]
          heading := resolveHeading acc.snake.heading sampled }
      snakeEvolution :=
        { newHead := [newHead]
          oldTail := if didEat acc newHead then [] else [acc.snake.body.headD ⟨0, 0⟩] }
      foodLocation :=
        if didEat acc newHead || acc.foodLocation.isNone then some food
        else acc.foodLocation }

/-- game.ts lines 166-172: the initial state `state0`. -/
def state0 (board : Board) : GameState :=
  let startSnake := board.startSnake 2 .E
  { isAlive := true
    snake := { body := startSnake, heading := .E }
    snakeEvolution := { newHead := startSnake, oldTail := [] }
    foodLocation := none }

/-- The state after `n` applications of the scanned transition, driven by a
heading oracle `hs` (the latest sampled heading at tick `n`) and a food oracle
`fs` (the cell `board.random()` would produce at tick `n`). `runState board hs
fs 0` is `state0`; index `n + 1` is the output of the `scan` on timer emission
`n`. -/
def runState (board : Board) (hs : Nat → Heading) (fs : Nat → CellLocation) :
    Nat → GameState
  | 0 => state0 board
  | n + 1 => transition board (fs n) (runState board hs fs n) (hs n)

/-- First `n` states of the stream right after `startWith(state0)`
(game.ts line 211): `state0` followed by the scan outputs in order. -/
def emitted (board : Board) (hs : Nat → Heading) (fs : Nat → CellLocation)
    (n : Nat) : List GameState :=
  (List.range n).map (runState board hs fs)

/-- What the subscriber (the renderer) receives out of the first `n` emissions:
`takeWhile(gameState => gameState.isAlive)` (game.ts line 212) stops the stream
at the first state that is not alive. -/
def delivered (board : Board) (hs : Nat → Heading) (fs : Nat → CellLocation)
    (n : Nat) : List GameState :=
  (emitted board hs fs n).takeWhile (·.isAlive)

/-- States reachable by the session stream: the initial state, plus one
transition from any reachable alive state under arbitrary sampled headings and
food placements. (`takeWhile` cancels the upstream timer on the first dead
state, so the scan is never applied to a dead state.) -/
inductive Reachable (board : Board) : GameState → Prop where
  | init : Reachable board (state0 board)
  | step (s : GameState) (sampled : Heading) (food : CellLocation) :
      Reachable board s → s.isAlive = true →
      Reachable board (transition board food s sampled)

/-- game.ts line 14: `const CELL_SIZE = 16`. -/
def CELL_SIZE : Nat := 16

/-- One session object: a `Game` instance, identified by the drawing surface it
was constructed with (game.ts lines 126-135). -/
structure GameSession where
  svg : Nat
  cellSize : Nat
deriving DecidableEq, Repr

/-- game.ts line 22: `new Game(svg, CELL_SIZE)`. -/
def newGame (svg : Nat) : GameSession :=
  { svg := svg, cellSize := CELL_SIZE }

/-- game.ts lines 18-26: the module-level `gameOn(svg)` acting on the single
`currentGame` slot. Returns the session that is active after the call, and
whether an existing session was abandoned first (stream cancelled, surface
cleared, game.ts lines 272-277). Note the source reuses the existing `Game`
object in the `if` branch and constructs a new one only in the `else` branch. -/
def gameOnCall (current : Option GameSession) (svg : Nat) : GameSession × Bool :=
  match current with
  | some g => (g, true)
  | none => (newGame svg, false)

/-- Decimal value of a digit-character list, most significant digit first; the
left inverse of `natChars`, used to prove that the rendering is injective. -/
def charsVal (l : List Char) : Nat :=
  l.foldl (fun acc c => 10 * acc + (c.toNat - 48)) 0

/-- Modelled from the spec (§4 step 2, "the exact opposite"): the 180-degree
opposite of a heading, used to compare the code's `isOpposite` against the
spec's wording. -/
def oppositeHeading : Heading → Heading
  | .N => .S
  | .E => .W
  | .S => .N
  | .W => .E

/-- The 5×5 board of the spec's bounds scenario (§8). -/
def b5 : Board := { width := 5, height := 5, cellSize := 16 }

/-- Heading oracle that samples East on every tick. -/
def hsE : Nat → Heading := fun _ => .E

/-- Food oracle that always places food at the origin (never on the snake's
path in the bounds scenario). -/
def fs0 : Nat → CellLocation := fun _ => ⟨0, 0⟩

/-! ### Helper lemmas: the canonical string key is injective -/

theorem digitChar_sub48 : ∀ d : Nat, d < 10 → (Nat.digitChar d).toNat - 48 = d := by
  decide

theorem digitChar_isDigit : ∀ d : Nat, d < 10 → (Nat.digitChar d).isDigit = true := by
  decide

theorem charsVal_append_digit (l : List Char) (c : Char) :
    charsVal (l ++ [c]) = 10 * charsVal l + (c.toNat - 48) := by
  unfold charsVal
  rw [List.foldl_append]
  rfl

theorem charsVal_natCharsAux : ∀ fuel n : Nat, n ≤ fuel →
    charsVal (natCharsAux fuel n) = n := by
  intro fuel
  induction fuel with
  | zero =>
    intro n hn
    have h0 : n = 0 := Nat.le_zero.mp hn
    subst h0
    rfl
  | succ fuel ih =>
    intro n hn
    cases n with
    | zero => rfl
    | succ m =>
      have hq : (m + 1) / 10 ≤ fuel := by
        have h1 : (m + 1) / 10 < m + 1 := Nat.div_lt_self (Nat.succ_pos m) (by decide)
        omega
      have hmod : (m + 1) % 10 < 10 := Nat.mod_lt _ (by decide)
      rw [natCharsAux, charsVal_append_digit, ih _ hq, digitChar_sub48 _ hmod]
      omega

theorem charsVal_natChars (n : Nat) : charsVal (natChars n) = n := by
  unfold natChars
  split
  · subst n
    rfl
  · exact charsVal_natCharsAux n n le_rfl

theorem natChars_inj (a b : Nat) (h : natChars a = natChars b) : a = b := by
  have ha := charsVal_natChars a
  rw [h, charsVal_natChars] at ha
  omega

theorem natCharsAux_isDigit : ∀ fuel n : Nat, ∀ c ∈ natCharsAux fuel n,
    c.isDigit = true := by
  intro fuel
  induction fuel with
  | zero =>
    intro n c hc
    cases n <;> simp [natCharsAux] at hc
  | succ fuel ih =>
    intro n c hc
    cases n with
    | zero => simp [natCharsAux] at hc
    | succ m =>
      rw [natCharsAux] at hc
      rcases List.mem_append.mp hc with h | h
      · exact ih _ _ h
      · have hc' : c = Nat.digitChar ((m + 1) % 10) := by simpa using h
        subst hc'
        exact digitChar_isDigit _ (Nat.mod_lt _ (by decide))

theorem natChars_isDigit (n : Nat) : ∀ c ∈ natChars n, c.isDigit = true := by
  intro c hc
  unfold natChars at hc
  split at hc
  · have hc' : c = '0' := by simpa using hc
    subst hc'
    decide
  · exact natCharsAux_isDigit _ _ _ hc

theorem underscore_not_mem_intChars (k : Int) : '_' ∉ intChars k := by
  intro h
  unfold intChars at h
  have hdig : ∀ c ∈ natChars k.natAbs, c.isDigit = true := natChars_isDigit _
  split at h
  · rcases List.mem_cons.mp h with h' | h'
    · exact absurd h' (by decide)
    · have := hdig _ h'
      simp at this
  · have := hdig _ h
    simp at this

theorem append_underscore_inj : ∀ l1 l1' l2 l2' : List Char, '_' ∉ l1 → '_' ∉ l1' →
    l1 ++ '_' :: l2 = l1' ++ '_' :: l2' → l1 = l1' ∧ l2 = l2' := by
  intro l1
  induction l1 with
  | nil =>
    intro l1' l2 l2' h1 h1' heq
    cases l1' with
    | nil => simpa using heq
    | cons a t =>
      exfalso
      apply h1'
      have ha : a = '_' := by
        have := congrArg (fun l => l.headD ' ') heq
        simpa using this.symm
      rw [ha]
      exact List.mem_cons_self _ _
  | cons a t ih =>
    intro l1' l2 l2' h1 h1' heq
    cases l1' with
    | nil =>
      exfalso
      apply h1
      have ha : a = '_' := by
        have := congrArg (fun l => l.headD ' ') heq
        simpa using this
      rw [ha]
      exact List.mem_cons_self _ _
    | cons b t' =>
      have hab : a = b := by
        have := congrArg (fun l => l.headD ' ') heq
        simpa using this
      subst hab
      have htail : t ++ '_' :: l2 = t' ++ '_' :: l2' := by
        have := congrArg List.tail heq
        simpa using this
      have hrec := ih t' l2 l2'
        (fun h => h1 (List.mem_cons_of_mem _ h))
        (fun h => h1' (List.mem_cons_of_mem _ h)) htail
      exact ⟨by rw [hrec.1], hrec.2⟩

theorem intChars_inj : ∀ a b : Int, intChars a = intChars b → a = b := by
  intro a b h
  unfold intChars at h
  by_cases ha : a < 0 <;> by_cases hb : b < 0 <;> simp only [ha, hb, if_pos, if_neg,
    not_false_eq_true, if_true, if_false] at h
  · have h2 : natChars a.natAbs = natChars b.natAbs := by
      injection h
    have := natChars_inj _ _ h2
    omega
  · exfalso
    have hm : '-' ∈ natChars b.natAbs := by
      rw [← h]
      exact List.mem_cons_self _ _
    have := natChars_isDigit _ _ hm
    simp at this
  · exfalso
    have hm : '-' ∈ natChars a.natAbs := by
      rw [h]
      exact List.mem_cons_self _ _
    have := natChars_isDigit _ _ hm
    simp at this
  · have := natChars_inj _ _ h
    omega

theorem cellId_inj (a b : CellLocation) (h : a.id = b.id) : a = b := by
  unfold CellLocation.id at h
  have h' : intChars a.x ++ '_' :: intChars a.y = intChars b.x ++ '_' :: intChars b.y := by
    injection h
  obtain ⟨hx, hy⟩ := append_underscore_inj _ _ _ _
    (underscore_not_mem_intChars _) (underscore_not_mem_intChars _) h'
  cases a
  cases b
  simp only [CellLocation.mk.injEq]
  exact ⟨intChars_inj _ _ hx, intChars_inj _ _ hy⟩

/-- The id-based `find?` used in the death test succeeds exactly on coordinate
membership. -/
theorem find_id_isSome_iff (l : List CellLocation) (c : CellLocation) :
    ((l.find? fun x => decide (x.id = c.id)).isSome = true) ↔ c ∈ l := by
  rw [List.find?_isSome]
  constructor
  · rintro ⟨x, hx, hpx⟩
    have hid : x.id = c.id := of_decide_eq_true hpx
    have := cellId_inj _ _ hid
    subst this
    exact hx
  · intro hm
    exact ⟨c, hm, by simp⟩

/-! ### Helper lemmas: stream delivery and the body-distinctness invariant -/

theorem takeWhile_append_of_nil {α : Type} (p : α → Bool) :
    ∀ l1 l2 : List α, l2.takeWhile p = [] → (l1 ++ l2).takeWhile p = l1.takeWhile p := by
  intro l1
  induction l1 with
  | nil =>
    intro l2 h
    simpa using h
  | cons a t ih =>
    intro l2 h
    by_cases hp : p a = true
    · simp only [List.cons_append, List.takeWhile_cons, hp, if_true]
      rw [ih _ h]
    · simp [List.cons_append, List.takeWhile_cons, hp]

/-- Every reachable state has a duplicate-free body: death leaves the body
untouched, and a surviving tick only appends a head that the death test just
checked against every pre-move cell. -/
theorem reachable_body_nodup (b : Board) (s : GameState) (hr : Reachable b s) :
    s.snake.body.Nodup := by
  induction hr with
  | init =>
    simp only [state0, Board.startSnake, CellLocation.next, List.nodup_cons,
      List.mem_singleton, List.mem_cons, List.not_mem_nil, or_false,
      List.nodup_singleton, and_true]
    refine ⟨?_, not_false, List.nodup_nil⟩
    intro hcontra
    have := congrArg CellLocation.x hcontra
    simp at this
  | step s sampled food hr halive ih =>
    by_cases hd : didDie b s (newHeadOf s sampled) = true
    · simpa [transition, hd] using ih
    · rw [Bool.not_eq_true] at hd
      have hnot : newHeadOf s sampled ∉ s.snake.body := by
        intro hmem
        have hsome :
            ((s.snake.body.find? fun x =>
              decide (x.id = (newHeadOf s sampled).id)).isSome = true) :=
          (find_id_isSome_iff _ _).mpr hmem
        simp [didDie, hsome] at hd
      by_cases he : didEat s (newHeadOf s sampled) = true
      · simp only [transition, hd, if_false, he, if_true, Bool.false_eq_true]
        rw [List.nodup_append]
        exact ⟨ih, List.nodup_singleton _, by simpa using hnot⟩
      · rw [Bool.not_eq_true] at he
        simp only [transition, hd, if_false, he, Bool.false_eq_true]
        rw [List.nodup_append]
        refine ⟨List.Nodup.sublist (List.drop_sublist 1 _) ih, List.nodup_singleton _, ?_⟩
        simp only [List.disjoint_singleton]
        intro hmem
        exact hnot (List.drop_subset _ _ hmem)

/-! ### Claim theorems -/

/-- C1 counterexample: the death branch is `{ ...acc, isAlive: false }`, so the
evolution diff of the previous state is carried over rather than emptied. Here
the previous state (one surviving tick into the 5×5 bounds scenario) is alive,
the death test fires on sampled heading East, and the emitted terminal state
has a nonempty `added` list and a nonempty `removed` list. -/
theorem death_empty_diff_cex :
    (runState b5 hsE fs0 1).isAlive = true ∧
    didDie b5 (runState b5 hsE fs0 1) (newHeadOf (runState b5 hsE fs0 1) .E) = true ∧
    (transition b5 ⟨0, 0⟩ (runState b5 hsE fs0 1) .E).isAlive = false ∧
    (transition b5 ⟨0, 0⟩ (runState b5 hsE fs0 1) .E).snakeEvolution.newHead ≠ [] ∧
    (transition b5 ⟨0, 0⟩ (runState b5 hsE fs0 1) .E).snakeEvolution.oldTail ≠ [] := by
  decide

/-- C1 (amended): for every previous state on which the death test fires, the
transition emits the previous state with only `isAlive` flipped to `false`: the
snake (body and heading), the food, and also the evolution diff are all carried
over unchanged — the diff is not reset to empty lists. -/
theorem death_frame (b : Board) (f : CellLocation) (s : GameState) (sampled : Heading)
    (h : didDie b s (newHeadOf s sampled) = true) :
    transition b f s sampled = { s with isAlive := false } := by
  simp [transition, h]

/-- C1 witness: the amended frame law applied at a concrete dying step. -/
theorem death_frame_witness :
    transition b5 ⟨0, 0⟩ (runState b5 hsE fs0 1) .E =
      { runState b5 hsE fs0 1 with isAlive := false } :=
  death_frame b5 ⟨0, 0⟩ (runState b5 hsE fs0 1) .E (by decide)

/-- C2 counterexample: in the 5×5 bounds scenario the terminal state is the
third emission (index 2) and has `isAlive = false`, yet `takeWhile(isAlive)` is
exclusive, so the renderer receives that terminal state zero times, not once. -/
theorem terminal_delivered_cex :
    (runState b5 hsE fs0 2).isAlive = false ∧
    (delivered b5 hsE fs0 4).count (runState b5 hsE fs0 2) = 0 := by
  decide

/-- C2 (amended): a state that reaches the subscriber is always alive — the
terminal `isAlive = false` state is never delivered to the renderer (the
end-of-game notifier is instead invoked from inside the transition) — and once
some emission index holds a dead state, the delivered sequence never grows
beyond what was delivered up to that index. -/
theorem delivered_alive_and_stops (b : Board) (hs : Nat → Heading)
    (fs : Nat → CellLocation) :
    (∀ n : Nat, ∀ s ∈ delivered b hs fs n, s.isAlive = true) ∧
    (∀ k m : Nat, (runState b hs fs k).isAlive = false → k ≤ m →
      delivered b hs fs m = delivered b hs fs k) := by
  constructor
  · intro n s hmem
    exact List.mem_takeWhile_imp hmem
  · intro k m hdead hkm
    obtain ⟨d, rfl⟩ := Nat.exists_eq_add_of_le hkm
    unfold delivered emitted
    rw [List.range_add, List.map_append]
    apply takeWhile_append_of_nil
    cases d with
    | zero => rfl
    | succ d' =>
      rw [List.range_succ_eq_map]
      simp only [List.map_cons, List.map_map, Nat.add_zero]
      simp [List.takeWhile_cons, hdead]

/-- C2 witness: in the 5×5 bounds scenario the dead state appears at index 2,
so delivery is already over by emission 4. -/
theorem delivered_alive_and_stops_witness :
    delivered b5 hsE fs0 4 = delivered b5 hsE fs0 2 :=
  (delivered_alive_and_stops b5 hsE fs0).2 2 4 (by decide) (by decide)

/-- C3 counterexample: with a session already active (bound to surface 0), a
call of `gameOn` with surface 1 keeps the old `Game` object — the active
session afterwards is still bound to surface 0, so no new session bound to the
given drawing surface is constructed. -/
theorem gameOn_new_session_cex :
    (gameOnCall (some (newGame 0)) 1).1 = newGame 0 ∧
    (gameOnCall (some (newGame 0)) 1).1.svg ≠ 1 := by
  decide

/-- C3 (amended): on a call of `gameOn(surface)` with no active session, a
fresh session bound to the given surface is constructed and started; with an
active session, that session is first abandoned (stream cancelled, visual
elements cleared) and then the very same session object — still bound to its
original surface — is restarted; a new object is never constructed in that
case. At most one session is active at any time (the single `currentGame`
slot). -/
theorem gameOn_session_lifecycle (current : Option GameSession) (svg : Nat) :
    (current = none → gameOnCall current svg = (newGame svg, false)) ∧
    (∀ g : GameSession, current = some g → gameOnCall current svg = (g, true)) := by
  cases current with
  | none =>
    refine ⟨fun _ => rfl, ?_⟩
    intro g hg
    cases hg
  | some g0 =>
    constructor
    · intro h
      cases h
    · intro g hg
      cases hg
      rfl

/-- C3 witness: the first call constructs a session bound to the given
surface. -/
theorem gameOn_session_lifecycle_witness :
    gameOnCall none 0 = (newGame 0, false) :=
  (gameOn_session_lifecycle none 0).1 rfl

/-- C4 counterexample: in the spec's bounds scenario the snake starts at
`[(2,2),(3,2)]`, and already after 2 transition ticks the game is dead — the
claim asserts `isAlive = true` with body `[(3,2),(4,2)]` at that point. -/
theorem bounds_scenario_cex :
    (state0 b5).snake.body = [⟨2, 2⟩, ⟨3, 2⟩] ∧
    (runState b5 hsE fs0 2).isAlive = false := by
  decide

/-- C4 (amended): with the 5×5 board, initial body `[(2,2),(3,2)]`, heading
East sampled on every tick and no eating, after 1 transition tick the body is
`[(3,2),(4,2)]` and the snake is alive; on the 2nd transition tick the new head
`(5,2)` is out of bounds, so `isAlive` becomes false and the body stays
`[(3,2),(4,2)]`. -/
theorem bounds_scenario :
    (state0 b5).snake.body = [⟨2, 2⟩, ⟨3, 2⟩] ∧
    (runState b5 hsE fs0 1).snake.body = [⟨3, 2⟩, ⟨4, 2⟩] ∧
    (runState b5 hsE fs0 1).isAlive = true ∧
    newHeadOf (runState b5 hsE fs0 1) .E = ⟨5, 2⟩ ∧
    b5.isWithinBounds ⟨5, 2⟩ = false ∧
    (runState b5 hsE fs0 2).isAlive = false ∧
    (runState b5 hsE fs0 2).snake.body = [⟨3, 2⟩, ⟨4, 2⟩] := by
  decide

/-- C5: on a surviving transition, eating grows the body by exactly one cell
and removes nothing, while not eating keeps the length and removes exactly the
oldest (first) cell of the previous body. -/
theorem growth_and_shrink (b : Board) (f : CellLocation) (s : GameState)
    (sampled : Heading) (c : CellLocation) (cs : List CellLocation)
    (hbody : s.snake.body = c :: cs)
    (hsurv : (transition b f s sampled).isAlive = true) :
    (didEat s (newHeadOf s sampled) = true →
      (transition b f s sampled).snake.body.length = s.snake.body.length + 1 ∧
      (transition b f s sampled).snakeEvolution.oldTail = []) ∧
    (didEat s (newHeadOf s sampled) = false →
      (transition b f s sampled).snake.body.length = s.snake.body.length ∧
      (transition b f s sampled).snakeEvolution.oldTail = [c]) := by
  have hd : didDie b s (newHeadOf s sampled) = false := by
    by_contra hcontra
    rw [Bool.not_eq_false] at hcontra
    simp [transition, hcontra] at hsurv
  constructor
  · intro he
    simp [transition, hd, he, hbody]
  · intro he
    simp [transition, hd, he, hbody]

/-- C5 witness: the very first tick of the bounds scenario survives without
eating: the body length stays 2 and exactly the old tail `(2,2)` is removed. -/
theorem growth_and_shrink_witness :
    (transition b5 ⟨0, 0⟩ (state0 b5) .E).snake.body.length =
      (state0 b5).snake.body.length ∧
    (transition b5 ⟨0, 0⟩ (state0 b5) .E).snakeEvolution.oldTail = [⟨2, 2⟩] :=
  (growth_and_shrink b5 ⟨0, 0⟩ (state0 b5) .E ⟨2, 2⟩ [⟨3, 2⟩]
    (by decide) (by decide)).2 (by decide)

/-- C6: the effective heading of a tick equals the previous heading exactly
when the sampled heading is the 180-degree opposite of it, and equals the
sampled heading otherwise (including when the sampled heading is unchanged). -/
theorem turn_resolution : ∀ prev sampled : Heading,
    resolveHeading prev sampled =
      if sampled = oppositeHeading prev then prev else sampled := by
  intro prev sampled
  cases prev <;> cases sampled <;> decide

/-- C7: for an alive previous state, the death test fires precisely when the
new head is out of board bounds or coincides (by coordinates) with some cell of
the full pre-move body, including the tail cell about to be dropped. -/
theorem death_test_iff (b : Board) (s : GameState) (sampled : Heading)
    (halive : s.isAlive = true) :
    didDie b s (newHeadOf s sampled) = true ↔
      (b.isWithinBounds (newHeadOf s sampled) = false ∨
        newHeadOf s sampled ∈ s.snake.body) := by
  unfold didDie
  rw [Bool.or_eq_true, Bool.not_eq_true', find_id_isSome_iff]

/-- C7 witness: the characterisation applied to the initial state of the 5×5
scenario, where heading East gives an in-bounds, non-colliding new head. -/
theorem death_test_iff_witness :
    didDie b5 (state0 b5) (newHeadOf (state0 b5) .E) = false ∧
    b5.isWithinBounds (newHeadOf (state0 b5) .E) = true ∧
    newHeadOf (state0 b5) .E ∉ (state0 b5).snake.body := by
  have h := death_test_iff b5 (state0 b5) .E rfl
  refine ⟨?_, by decide, by decide⟩
  rw [← Bool.not_eq_true, h]
  push_neg
  exact ⟨by decide, by decide⟩

/-- C8: every reachable alive state (from the initial 2-cell state, under any
sequence of sampled headings and food placements) has pairwise-distinct body
cells. -/
theorem alive_body_distinct (b : Board) (s : GameState) (hr : Reachable b s)
    (halive : s.isAlive = true) : s.snake.body.Nodup :=
  reachable_body_nodup b s hr

/-- C8 witness: the invariant at the initial state of the 5×5 board. -/
theorem alive_body_distinct_witness : (state0 b5).snake.body.Nodup :=
  alive_body_distinct b5 (state0 b5) Reachable.init rfl

/-- C9: moving a cell one step in a heading and then one step in any heading
that `isOpposite` declares opposite returns to the original coordinates. -/
theorem next_roundtrip (c : CellLocation) (h h2 : Heading)
    (hop : isOpposite h h2 = true) : (c.next h).next h2 = c := by
  cases c
  cases h <;> cases h2 <;> simp_all [isOpposite, CellLocation.next]

/-- C9 witness: north then south from the origin. -/
theorem next_roundtrip_witness :
    ((⟨0, 0⟩ : CellLocation).next .N).next .S = ⟨0, 0⟩ :=
  next_roundtrip ⟨0, 0⟩ .N .S (by decide)

/-- C10: two cells have the same canonical string key iff their coordinates
agree, and consequently the id-based `find?` membership test used by the death
test succeeds exactly on coordinate membership (the id-based food-equality test
is the same string equality). -/
theorem cellId_coincides : ∀ a b : CellLocation,
    (CellLocation.id a = CellLocation.id b ↔ a.x = b.x ∧ a.y = b.y) ∧
    (∀ l : List CellLocation,
      ((l.find? fun x => decide (x.id = a.id)).isSome = true ↔ a ∈ l)) := by
  intro a b
  refine ⟨⟨?_, ?_⟩, fun l => find_id_isSome_iff l a⟩
  · intro h
    have := cellId_inj a b h
    subst this
    exact ⟨rfl, rfl⟩
  · intro hxy
    cases a
    cases b
    simp only [CellLocation.mk.injEq] at hxy ⊢
    rw [hxy.1, hxy.2]

end SnakeGame
